import Mathlib

/-!
Verification of the brainfuck-rs library: a shallow embedding of
`src/lib/src/parse.rs` and `src/lib/src/interpreter.rs` in Lean 4,
with theorems settling the specification's claims about them.

Conventions:
* Rust panics (`unwrap`, `assert_ne!`, out-of-bounds indexing, explicit
  `panic!`) are modelled as `none` / `Except.error` outcomes.
* `u8` cells are modelled as `Nat` with explicit `% 256` wrapping.
* Byte streams (`impl Read` / `impl Write`) are modelled as lists of
  bytes: the remaining input list and the accumulated output list.
-/

/-- The instruction set, from `src/lib/src/instruction.rs`. -/
inductive Instruction where
  | GoRight
  | GoLeft
  | Increment
  | Decrement
  | Output
  | Input
  | BeginLoop (idx : Nat)
  | EndLoop (idx : Nat)
  | Abort
deriving DecidableEq, Repr

open Instruction

/-- The body of the `for (idx, c) in code` loop of `parse` in
`src/lib/src/parse.rs`, processing the remaining characters.  `idx` is the
index of the next character within the *source text* (Rust's
`code.chars().enumerate()`), `output` is the instruction vector built so
far and `stack` models `loop_stack` (head = top of stack).
`loop_stack.pop().unwrap()` on an empty stack and the out-of-bounds write
`output[open_idx] = ...` are Rust panics, modelled as `none`. -/
def parseLoop : List Char → Nat → List Instruction → List Nat →
    Option (List Instruction)
  | [], _, output, _ => some output
  | c :: rest, idx, output, stack =>
    match c with
    | '>' => parseLoop rest (idx + 1) (output ++ [GoRight]) stack
    | '<' => parseLoop rest (idx + 1) (output ++ [GoLeft]) stack
    | '+' => parseLoop rest (idx + 1) (output ++ [Increment]) stack
    | '-' => parseLoop rest (idx + 1) (output ++ [Decrement]) stack
    | '.' => parseLoop rest (idx + 1) (output ++ [Output]) stack
    | ',' => parseLoop rest (idx + 1) (output ++ [Input]) stack
    | '[' => parseLoop rest (idx + 1) (output ++ [Abort]) (idx :: stack)
    | ']' =>
      match stack with
      | [] => none
      | openIdx :: stack' =>
        if openIdx < output.length then
          parseLoop rest (idx + 1)
            ((output.set openIdx (BeginLoop idx)) ++ [EndLoop openIdx]) stack'
        else none
    | _ => parseLoop rest (idx + 1) output stack

/-- `parse` from `src/lib/src/parse.rs`: compile source text to a vector of
instructions.  `none` models a panic of the Rust function. -/
def parse (code : String) : Option (List Instruction) :=
  parseLoop code.data 0 [] []

/-- The loop-matching invariant of the spec: every `BeginLoop j` at index
`i` has `EndLoop i` at index `j`, and vice versa. -/
def loopsMatched (prog : List Instruction) : Bool :=
  (List.range prog.length).all fun i =>
    match prog.get? i with
    | some (BeginLoop j) => decide (prog.get? j = some (EndLoop i))
    | some (EndLoop j) => decide (prog.get? j = some (BeginLoop i))
    | _ => true

/-- The set of characters `parse` recognizes; every other character falls
through the wildcard arm (`continue`). -/
def isInstructionChar (c : Char) : Bool :=
  c = '>' || c = '<' || c = '+' || c = '-' || c = '.' || c = ',' ||
    c = '[' || c = ']'

/-- A source text has an unmatched `]` when, scanning left to right, a `]`
is seen with no pending unclosed `[` (the bracket stack would be empty). -/
def hasUnmatchedClose : List Char → Nat → Bool
  | [], _ => false
  | c :: rest, depth =>
    if c = '[' then hasUnmatchedClose rest (depth + 1)
    else if c = ']' then
      if depth = 0 then true else hasUnmatchedClose rest (depth - 1)
    else hasUnmatchedClose rest depth

/-- A source text has balanced brackets: no unmatched `]` while scanning,
and no unclosed `[` at the end. -/
def balanced : List Char → Nat → Bool
  | [], depth => depth = 0
  | c :: rest, depth =>
    if c = '[' then balanced rest (depth + 1)
    else if c = ']' then
      if depth = 0 then false else balanced rest (depth - 1)
    else balanced rest depth

/-- C4: Compiling the source text `"[+]"` produces exactly the instruction
sequence `[BeginLoop 2, Increment, EndLoop 0]` (the spec's
`[LoopStart(2), Increment, LoopEnd(0)]`). -/
theorem parse_simple_loop :
    parse "[+]" = some [BeginLoop 2, Increment, EndLoop 0] := by
  decide

/-- C1: the loop-matching invariant FAILS on the code.  The source
`"a[+]"` has balanced brackets and an unrecognized leading character, yet
the compiler — which pushes the *source-text* index of `[` onto the bracket
stack rather than its output index — produces
`[Abort, BeginLoop 3, EndLoop 1]`: the `Abort` placeholder survives, the
`Increment` is overwritten, and `BeginLoop 3` points past the end of the
sequence, so the pairs form no matching at all. -/
theorem parse_matching_bug :
    balanced "a[+]".data 0 = true ∧
      parse "a[+]" = some [Abort, BeginLoop 3, EndLoop 1] ∧
      loopsMatched [Abort, BeginLoop 3, EndLoop 1] = false := by
  decide

/-- C2: comment insertion FAILS to preserve the compiled sequence.
Inserting the single unrecognized character `a` in front of the source
`"[+]"` changes the compiled instruction sequence. -/
theorem parse_comment_insertion_bug :
    parse "[+]" = some [BeginLoop 2, Increment, EndLoop 0] ∧
      parse "a[+]" = some [Abort, BeginLoop 3, EndLoop 1] ∧
      parse "a[+]" ≠ parse "[+]" := by
  decide

/-- C3: `parse` can fail on a source with NO unmatched `]`.  On `"a[]"` the
popped bracket-stack entry is the source index `1`, the output vector has
length `1`, and the Rust write `output[1] = BeginLoop(2)` panics with an
index out of bounds — even though every `]` in `"a[]"` is matched.  (On a
genuinely unmatched `]`, as in `"]"`, it fails as the claim says.) -/
theorem parse_failure_bug :
    hasUnmatchedClose "a[]".data 0 = false ∧
      parse "a[]" = none ∧
      hasUnmatchedClose "]".data 0 = true ∧
      parse "]" = none := by
  decide

/-- The interpreter state from `src/lib/src/interpreter.rs`: the tape
(`memory: Vec<u8>`, cells modelled as `Nat` values below 256) and the tape
cursor (`position`). -/
structure State where
  memory : List Nat
  position : Nat
deriving DecidableEq, Repr

/-- `State::new()`: 1024 zero cells, cursor at 0. -/
def State.new : State :=
  { memory := List.replicate 1024 0, position := 0 }

/-- `State::get_data`: `self.memory[self.position]`.  Under the cursor
invariant `position < memory.length` the index is always in bounds; out of
bounds the Rust code would panic, here `getD` returns 0 (never exercised by
theorems, which carry the invariant). -/
def State.get_data (s : State) : Nat :=
  s.memory.getD s.position 0

/-- `State::set_data`: `self.memory[self.position] = data`. -/
def State.set_data (s : State) (data : Nat) : State :=
  { s with memory := s.memory.set s.position data }

/-- `State::move_left`: `assert_ne!(self.position, 0); self.position -= 1`.
The failed assertion (a Rust panic) is modelled as `none`. -/
def State.move_left (s : State) : Option State :=
  if s.position = 0 then none
  else some { s with position := s.position - 1 }

/-- `State::move_right`: `self.position += 1; if self.position ==
self.memory.len() { self.memory.push(0) }`. -/
def State.move_right (s : State) : State :=
  if s.position + 1 = s.memory.length then
    { memory := s.memory ++ [0], position := s.position + 1 }
  else
    { s with position := s.position + 1 }

/-- How a run of `run_bytecode` ends: `ok` is normal termination (the
instruction pointer reached the end of the bytecode); the other variants
are the distinct Rust panics inside the dispatch loop. -/
inductive RunResult where
  | ok
  | tapeUnderflow
  | inputExhausted
  | abortHit
deriving DecidableEq, Repr

/-- A configuration of the dispatch loop of `run_bytecode`: the tape
state, the remaining input bytes, the output bytes written so far, and
the instruction pointer (`position` in the Rust loop). -/
structure Config where
  state : State
  input : List Nat
  output : List Nat
  position : Nat
deriving DecidableEq, Repr

/-- The configuration `run_bytecode` starts from: `State::new()`, the given
input stream, empty output, instruction pointer 0. -/
def initConfig (input : List Nat) : Config :=
  { state := State.new, input := input, output := [], position := 0 }

/-- One arm of the `match instruction` in `run_bytecode`, together with the
unconditional `position += 1` that follows it.  `Except.error` models the
Rust panics: `move_left`'s assertion, `read_exact(..).unwrap()` on an
exhausted input, and the `panic!()` of the `Abort` arm.  `u8` wrapping
arithmetic (`wrapping_add`/`wrapping_sub`) is `% 256` on `Nat`. -/
def stepInstr (i : Instruction) (c : Config) : Except RunResult Config :=
  match i with
  | GoRight =>
    .ok { c with state := c.state.move_right, position := c.position + 1 }
  | GoLeft =>
    match c.state.move_left with
    | none => .error .tapeUnderflow
    | some s => .ok { c with state := s, position := c.position + 1 }
  | Increment =>
    .ok { c with state := c.state.set_data ((c.state.get_data + 1) % 256),
                 position := c.position + 1 }
  | Decrement =>
    .ok { c with state := c.state.set_data ((c.state.get_data + 255) % 256),
                 position := c.position + 1 }
  | Output =>
    .ok { c with output := c.output ++ [c.state.get_data],
                 position := c.position + 1 }
  | Input =>
    match c.input with
    | [] => .error .inputExhausted
    | b :: rest =>
      .ok { c with state := c.state.set_data b, input := rest,
                   position := c.position + 1 }
  | BeginLoop idx =>
    .ok { c with position :=
            (if c.state.get_data = 0 then idx else c.position) + 1 }
  | EndLoop idx =>
    .ok { c with position :=
            (if c.state.get_data ≠ 0 then idx else c.position) + 1 }
  | Abort => .error .abortHit

/-- The `while position < bytecode.len()` dispatch loop of `run_bytecode`,
with explicit fuel (the Rust loop need not terminate; `none` means the
fuel ran out).  `some (.ok, c)` is normal termination, `some (r, c)` with
`r ≠ .ok` is the corresponding panic at configuration `c`. -/
def run (bytecode : List Instruction) : Nat → Config → Option (RunResult × Config)
  | 0, _ => none
  | fuel + 1, c =>
    if h : c.position < bytecode.length then
      match stepInstr (bytecode.get ⟨c.position, h⟩) c with
      | .error r => some (r, c)
      | .ok c' => run bytecode fuel c'
    else
      some (.ok, c)

/-- Reading back the cell just written by `set_data` (shared helper). -/
theorem State.get_data_set_data (s : State) (v : Nat)
    (h : s.position < s.memory.length) : (s.set_data v).get_data = v := by
  unfold State.get_data State.set_data
  rw [List.getD_eq_getElem _ _ (by simpa using h), List.getElem_set_self]

/-- `set_data` leaves every other cell unchanged (shared helper). -/
theorem State.get_data_set_data_ne (s : State) (v j : Nat)
    (hj : j ≠ s.position) :
    (s.set_data v).memory.getD j 0 = s.memory.getD j 0 := by
  unfold State.set_data
  simp [List.getD_eq_getElem?_getD, List.getElem?_set_ne (Ne.symm hj)]

/-- C6: modulo-256 cell arithmetic.  Under the cursor invariant,
`Increment` rewrites the current cell to `(v + 1) % 256` (so a cell
holding 255 becomes 0) and `Decrement` rewrites it to `(v + 255) % 256`,
which equals `(v - 1) mod 256` over the integers for every `u8` value `v`
(so a cell holding 0 becomes 255); neither touches any other cell, the
tape cursor, the input or the output. -/
theorem increment_decrement_wrap (c : Config)
    (h : c.state.position < c.state.memory.length) :
    (∃ c', stepInstr Increment c = Except.ok c' ∧
       c'.state.get_data = (c.state.get_data + 1) % 256 ∧
       c'.state.position = c.state.position ∧
       c'.state.memory.length = c.state.memory.length ∧
       (∀ j, j ≠ c.state.position →
          c'.state.memory.getD j 0 = c.state.memory.getD j 0) ∧
       c'.input = c.input ∧ c'.output = c.output ∧
       (c.state.get_data = 255 → c'.state.get_data = 0)) ∧
    (∃ c', stepInstr Decrement c = Except.ok c' ∧
       c'.state.get_data = (c.state.get_data + 255) % 256 ∧
       (c.state.get_data < 256 →
          (c'.state.get_data : Int) = ((c.state.get_data : Int) - 1) % 256) ∧
       c'.state.position = c.state.position ∧
       c'.state.memory.length = c.state.memory.length ∧
       (∀ j, j ≠ c.state.position →
          c'.state.memory.getD j 0 = c.state.memory.getD j 0) ∧
       c'.input = c.input ∧ c'.output = c.output ∧
       (c.state.get_data = 0 → c'.state.get_data = 255)) := by
  constructor
  · refine ⟨_, rfl, ?_, rfl, by simp [State.set_data], ?_, rfl, rfl, ?_⟩
    · exact c.state.get_data_set_data _ h
    · intro j hj
      exact c.state.get_data_set_data_ne _ j hj
    · intro h255
      rw [c.state.get_data_set_data _ h, h255]
  · refine ⟨_, rfl, ?_, ?_, rfl, by simp [State.set_data], ?_, rfl, rfl, ?_⟩
    · exact c.state.get_data_set_data _ h
    · intro hv
      rw [c.state.get_data_set_data _ h]
      push_cast
      omega
    · intro j hj
      exact c.state.get_data_set_data_ne _ j hj
    · intro h0
      rw [c.state.get_data_set_data _ h, h0]

/-- C7: tape growth.  Under the cursor invariant, `move_right` never
fails: it increments the cursor by exactly 1, appends exactly one zero
cell precisely when the new cursor would equal the tape length (and then
the current cell reads 0), leaves the tape untouched otherwise, and the
cursor invariant is preserved. -/
theorem move_right_spec (s : State) (h : s.position < s.memory.length) :
    s.move_right.position = s.position + 1 ∧
    s.move_right.position < s.move_right.memory.length ∧
    (s.position + 1 = s.memory.length →
       s.move_right.memory = s.memory ++ [0] ∧ s.move_right.get_data = 0) ∧
    (s.position + 1 ≠ s.memory.length → s.move_right.memory = s.memory) := by
  by_cases hc : s.position + 1 = s.memory.length
  · have hm : s.move_right =
        { memory := s.memory ++ [0], position := s.position + 1 } := by
      unfold State.move_right
      rw [if_pos hc]
    refine ⟨by rw [hm], ?_, fun _ => ⟨by rw [hm], ?_⟩,
      fun hne => absurd hc hne⟩
    · rw [hm]
      simp only [List.length_append, List.length_singleton]
      omega
    · rw [hm]
      show (s.memory ++ [0]).getD (s.position + 1) 0 = 0
      rw [List.getD_append_right _ _ _ _ (by omega)]
      have h0 : s.position + 1 - s.memory.length = 0 := by omega
      rw [h0]
      rfl
  · have hm : s.move_right = { s with position := s.position + 1 } := by
      unfold State.move_right
      rw [if_neg hc]
    refine ⟨by rw [hm], ?_, fun he => absurd he hc, fun _ => by rw [hm]⟩
    rw [hm]
    show s.position + 1 < s.memory.length
    omega

/-- C8: tape underflow.  `move_left` with the cursor at 0 hits the failed
`assert_ne!` (a fatal condition, and the whole run of `run_bytecode`
terminates abnormally with the tape-underflow outcome, as the closed third
conjunct shows on the one-instruction program `[GoLeft]`); with the cursor
above 0 it succeeds and decrements the cursor by exactly 1, touching
nothing else. -/
theorem move_left_spec (c : Config) :
    (c.state.position = 0 →
       c.state.move_left = none ∧
       stepInstr GoLeft c = Except.error RunResult.tapeUnderflow) ∧
    (c.state.position ≠ 0 →
       c.state.move_left =
         some { c.state with position := c.state.position - 1 } ∧
       stepInstr GoLeft c =
         Except.ok { c with
           state := { c.state with position := c.state.position - 1 },
           position := c.position + 1 }) ∧
    (run [GoLeft] 2 (initConfig [])).map Prod.fst =
      some RunResult.tapeUnderflow := by
  refine ⟨fun h0 => ?_, fun hne => ?_, by decide⟩
  · simp [State.move_left, stepInstr, h0]
  · simp [State.move_left, stepInstr, hne]

/-- C9: input exhaustion.  An `Input` instruction with an empty input
stream is a fatal condition (`read_exact(..).unwrap()` panics, and a run
of `run_bytecode` on `[Input]` with empty input ends abnormally with the
input-exhausted outcome, as the closed second conjunct shows); with at
least one byte remaining, exactly that byte is consumed and stored in the
current cell, and every other cell, the tape cursor and the output are
unchanged. -/
theorem input_spec (c : Config) :
    (c.input = [] → stepInstr Input c = Except.error RunResult.inputExhausted) ∧
    ((run [Input] 2 (initConfig [])).map Prod.fst =
       some RunResult.inputExhausted) ∧
    (∀ b rest, c.input = b :: rest →
       ∃ c', stepInstr Input c = Except.ok c' ∧
         c'.input = rest ∧ c'.output = c.output ∧
         c'.state.position = c.state.position ∧
         c'.state.memory = c.state.memory.set c.state.position b ∧
         (c.state.position < c.state.memory.length →
            c'.state.get_data = b) ∧
         (∀ j, j ≠ c.state.position →
            c'.state.memory.getD j 0 = c.state.memory.getD j 0)) := by
  refine ⟨fun h0 => by simp [stepInstr, h0], by decide, fun b rest hin => ?_⟩
  have hstep : stepInstr Input c = Except.ok
      { c with state := c.state.set_data b, input := rest,
               position := c.position + 1 } := by
    unfold stepInstr
    rw [hin]
  exact ⟨_, hstep, rfl, rfl, rfl, rfl,
    fun hlt => c.state.get_data_set_data b hlt,
    fun j hj => c.state.get_data_set_data_ne b j hj⟩

/-- The bytecode of the spec's Scenario 5:
`[Increment, Increment, Increment, LoopStart(6), Decrement, Output,
LoopEnd(3)]`. -/
def scenario5 : List Instruction :=
  [Increment, Increment, Increment, BeginLoop 6, Decrement, Output, EndLoop 3]

/-- C5: running Scenario 5 from a fresh tape terminates normally with
output `[2, 1, 0]`, and in general every successful step of the dispatch
loop advances the instruction pointer by exactly 1 — from the old position
for a non-jumping instruction, and from the jump target when a
`BeginLoop`/`EndLoop` took its jump. -/
theorem run_scenario5 :
    ((run scenario5 20 (initConfig [])).map (fun p => (p.1, p.2.output)) =
       some (RunResult.ok, [2, 1, 0])) ∧
    (∀ i c c', stepInstr i c = Except.ok c' →
       c'.position = c.position + 1 ∨
         ∃ t, ((i = BeginLoop t ∧ c.state.get_data = 0) ∨
               (i = EndLoop t ∧ c.state.get_data ≠ 0)) ∧
           c'.position = t + 1) := by
  refine ⟨by decide, fun i c c' hstep => ?_⟩
  cases i with
  | GoRight =>
    simp only [stepInstr] at hstep
    cases hstep
    left
    rfl
  | GoLeft =>
    simp only [stepInstr] at hstep
    cases hml : c.state.move_left with
    | none => rw [hml] at hstep; cases hstep
    | some s => rw [hml] at hstep; cases hstep; left; rfl
  | Increment =>
    simp only [stepInstr] at hstep
    cases hstep
    left
    rfl
  | Decrement =>
    simp only [stepInstr] at hstep
    cases hstep
    left
    rfl
  | Output =>
    simp only [stepInstr] at hstep
    cases hstep
    left
    rfl
  | Input =>
    simp only [stepInstr] at hstep
    cases hin : c.input with
    | nil => rw [hin] at hstep; cases hstep
    | cons b rest => rw [hin] at hstep; cases hstep; left; rfl
  | BeginLoop t =>
    simp only [stepInstr] at hstep
    by_cases h0 : c.state.get_data = 0
    · rw [if_pos h0] at hstep
      cases hstep
      right
      exact ⟨t, Or.inl ⟨rfl, h0⟩, rfl⟩
    · rw [if_neg h0] at hstep
      cases hstep
      left
      rfl
  | EndLoop t =>
    simp only [stepInstr] at hstep
    by_cases h0 : c.state.get_data = 0
    · rw [if_neg (fun hn => hn h0)] at hstep
      cases hstep
      left
      rfl
    · rw [if_pos h0] at hstep
      cases hstep
      right
      exact ⟨t, Or.inr ⟨rfl, h0⟩, rfl⟩
  | Abort =>
    simp only [stepInstr] at hstep
    cases hstep

/-- Big-step semantics of the dispatch loop of `run_bytecode`, as a
relation: `Terminates bytecode c r out` says a run started at
configuration `c` ends with outcome `r` and total output `out`.  `done`
is the loop guard failing (normal termination), `fatal` a panicking
instruction, `next` one successful instruction followed by the rest of
the run. -/
inductive Terminates (bytecode : List Instruction) :
    Config → RunResult → List Nat → Prop where
  | done (c : Config) (hc : ¬ c.position < bytecode.length) :
      Terminates bytecode c RunResult.ok c.output
  | fatal (c : Config) (r : RunResult) (hc : c.position < bytecode.length)
      (hs : stepInstr (bytecode.get ⟨c.position, hc⟩) c = Except.error r) :
      Terminates bytecode c r c.output
  | next (c c' : Config) (r : RunResult) (out : List Nat)
      (hc : c.position < bytecode.length)
      (hs : stepInstr (bytecode.get ⟨c.position, hc⟩) c = Except.ok c')
      (ht : Terminates bytecode c' r out) :
      Terminates bytecode c r out

/-- C10: execution is deterministic.  Two terminating runs of the
dispatch loop from the same configuration (same bytecode, same tape,
same remaining input) end with the same outcome and the same output byte
sequence. -/
theorem run_deterministic {bytecode : List Instruction} {c : Config}
    {r1 r2 : RunResult} {out1 out2 : List Nat}
    (h1 : Terminates bytecode c r1 out1)
    (h2 : Terminates bytecode c r2 out2) :
    r1 = r2 ∧ out1 = out2 := by
  have key : ∀ {r2' out2'}, Terminates bytecode c r2' out2' →
      r1 = r2' ∧ out1 = out2' := by
    clear h2 r2 out2
    induction h1 with
    | done c hc =>
      intro r2' out2' h2
      cases h2
      · exact ⟨rfl, rfl⟩
      · rename_i hc2 hs2
        exact absurd hc2 hc
      · rename_i c2x hc2 hs2 ht2
        exact absurd hc2 hc
    | fatal c r hc hs =>
      intro r2' out2' h2
      cases h2
      · rename_i hc2
        exact absurd hc hc2
      · rename_i hc2 hs2
        have heq : (Except.error r : Except RunResult Config) =
            Except.error r2' := hs.symm.trans hs2
        cases heq
        exact ⟨rfl, rfl⟩
      · rename_i c2x hc2 hs2 ht2
        have heq : (Except.error r : Except RunResult Config) =
            Except.ok c2x := hs.symm.trans hs2
        cases heq
    | next c c' r out hc hs ht ih =>
      intro r2' out2' h2
      cases h2
      · rename_i hc2
        exact absurd hc hc2
      · rename_i hc2 hs2
        have heq : (Except.ok c' : Except RunResult Config) =
            Except.error r2' := hs.symm.trans hs2
        cases heq
      · rename_i c2x hc2 hs2 ht2
        have heq : (Except.ok c' : Except RunResult Config) =
            Except.ok c2x := hs.symm.trans hs2
        cases heq
        exact ih ht2
  exact key h2

/-- Witness for C5: a successful `Output` step from the initial
configuration advances the instruction pointer from 0 to 1. -/
theorem run_scenario5_witness :
    (Config.mk State.new [] [0] 1).position = (initConfig []).position + 1 ∨
      ∃ t, ((Output = BeginLoop t ∧ (initConfig []).state.get_data = 0) ∨
            (Output = EndLoop t ∧ (initConfig []).state.get_data ≠ 0)) ∧
        (Config.mk State.new [] [0] 1).position = t + 1 :=
  run_scenario5.2 Output (initConfig []) (Config.mk State.new [] [0] 1)
    (by rfl)

/-- Witness for C6: the wrap-around theorem applied at the initial
configuration, whose cursor invariant holds (0 < 1024). -/
theorem increment_decrement_wrap_witness :
    (∃ c', stepInstr Increment (initConfig []) = Except.ok c' ∧
       c'.state.get_data = ((initConfig []).state.get_data + 1) % 256 ∧
       c'.state.position = (initConfig []).state.position ∧
       c'.state.memory.length = (initConfig []).state.memory.length ∧
       (∀ j, j ≠ (initConfig []).state.position →
          c'.state.memory.getD j 0 = (initConfig []).state.memory.getD j 0) ∧
       c'.input = (initConfig []).input ∧ c'.output = (initConfig []).output ∧
       ((initConfig []).state.get_data = 255 → c'.state.get_data = 0)) ∧
    (∃ c', stepInstr Decrement (initConfig []) = Except.ok c' ∧
       c'.state.get_data = ((initConfig []).state.get_data + 255) % 256 ∧
       ((initConfig []).state.get_data < 256 →
          (c'.state.get_data : Int) =
            (((initConfig []).state.get_data : Int) - 1) % 256) ∧
       c'.state.position = (initConfig []).state.position ∧
       c'.state.memory.length = (initConfig []).state.memory.length ∧
       (∀ j, j ≠ (initConfig []).state.position →
          c'.state.memory.getD j 0 = (initConfig []).state.memory.getD j 0) ∧
       c'.input = (initConfig []).input ∧ c'.output = (initConfig []).output ∧
       ((initConfig []).state.get_data = 0 → c'.state.get_data = 255)) :=
  increment_decrement_wrap (initConfig [])
    (by
      show (0 : Nat) < (List.replicate 1024 (0 : Nat)).length
      rw [List.length_replicate]
      omega)

/-- Witness for C7: `move_right` from the fresh tape, whose cursor
invariant holds (0 < 1024). -/
theorem move_right_spec_witness :
    State.new.move_right.position = State.new.position + 1 ∧
    State.new.move_right.position < State.new.move_right.memory.length ∧
    (State.new.position + 1 = State.new.memory.length →
       State.new.move_right.memory = State.new.memory ++ [0] ∧
       State.new.move_right.get_data = 0) ∧
    (State.new.position + 1 ≠ State.new.memory.length →
       State.new.move_right.memory = State.new.memory) :=
  move_right_spec State.new
    (by
      show (0 : Nat) < (List.replicate 1024 (0 : Nat)).length
      rw [List.length_replicate]
      omega)

/-- Witness for C8: both branches — the fresh tape (cursor 0) underflows,
and a two-cell tape with cursor 1 moves to cursor 0. -/
theorem move_left_spec_witness :
    ((initConfig []).state.move_left = none ∧
       stepInstr GoLeft (initConfig []) =
         Except.error RunResult.tapeUnderflow) ∧
      ((State.mk [5, 7] 1).move_left = some (State.mk [5, 7] 0) ∧
       stepInstr GoLeft (Config.mk (State.mk [5, 7] 1) [] [] 0) =
         Except.ok (Config.mk (State.mk [5, 7] 0) [] [] 1)) :=
  ⟨(move_left_spec (initConfig [])).1 rfl,
   (move_left_spec (Config.mk (State.mk [5, 7] 1) [] [] 0)).2.1 (by decide)⟩

/-- Witness for C9: both branches — empty input makes `Input` fatal, and
input `[72]` stores the byte 72 in the current cell (the spec's
Scenario 4 byte). -/
theorem input_spec_witness :
    stepInstr Input (initConfig []) = Except.error RunResult.inputExhausted ∧
      (∃ c', stepInstr Input (initConfig [72]) = Except.ok c' ∧
        c'.input = [] ∧ c'.output = (initConfig [72]).output ∧
        c'.state.position = (initConfig [72]).state.position ∧
        c'.state.memory =
          (initConfig [72]).state.memory.set
            (initConfig [72]).state.position 72 ∧
        ((initConfig [72]).state.position <
            (initConfig [72]).state.memory.length →
           c'.state.get_data = 72) ∧
        (∀ j, j ≠ (initConfig [72]).state.position →
           c'.state.memory.getD j 0 =
             (initConfig [72]).state.memory.getD j 0)) :=
  ⟨(input_spec (initConfig [])).1 rfl,
   (input_spec (initConfig [72])).2.2 72 [] rfl⟩

/-- Witness for C10: two (trivially equal) terminating runs of the empty
bytecode from the initial configuration agree on outcome and output. -/
theorem run_deterministic_witness :
    RunResult.ok = RunResult.ok ∧
      (initConfig []).output = (initConfig []).output :=
  run_deterministic
    (Terminates.done (initConfig []) (by decide) :
      Terminates [] (initConfig []) RunResult.ok (initConfig []).output)
    (Terminates.done (initConfig []) (by decide))
